import Mathlib

/-!
Verification of the wasm-sim particle-collision engine (`src/wasm-sim/src/lib.rs`,
the crate root; the sibling modular files are not referenced by it).

Modelling conventions:
* `f32` arithmetic is embedded over `ℚ` (exact field arithmetic).  All literals
  appearing in the source (world sizes, `0.5`, cell sizes) are exactly
  representable in `f32`, so the `ℚ` embedding agrees with the source on the
  concrete inputs evaluated below.
* The `u32 -> f32` conversion inside `Lcg::next_f32` is rounding and is
  modelled bit-precisely by `roundf32` (round to nearest, ties to even, 24-bit
  significand).  The subsequent multiplication by `SCALE = 1/2^32` is exact in
  `f32` (a power-of-two scaling of a 24-bit significand), so
  `next_f32 = roundf32 (next_u32) / 2^32` holds exactly.
* `f32::sqrt` is modelled by `ratSqrt`, which is exact on perfect-square
  rationals (where `f32::sqrt` is also exact for representable inputs) and a
  floor approximation otherwise; every concrete evaluation below only takes
  square roots of perfect squares.
* The grid's `HashMap<u32, Cell>` is modelled as a total function
  `Nat -> Cell` whose default value `⟨[], 0⟩` coincides with the cell created
  by `or_insert_with`; a missing key and a stamp-0 cell are observationally
  identical because the grid stamp is always ≥ 1.
* `assert!` failures are modelled as `Option.none` results.
* `u32`/`u64` wrapping arithmetic is `Nat` arithmetic mod `2^32`/`2^64`.
-/

/-- Rust's `f32::clamp(lo, hi)` on finite values:
`if self < min { min } else if self > max { max } else { self }`. -/
def rustClamp (x lo hi : ℚ) : ℚ :=
  if x < lo then lo else if hi < x then hi else x

/-- Fuel-driven integer square root (`isqrt(n)` from `isqrt(n/4)`); with fuel
`f` it is exact for all `n < 4^f`.  (A structurally recursive stand-in for
`Nat.sqrt`, whose well-founded recursion the kernel cannot evaluate.) -/
def sqrtFuel : Nat → Nat → Nat
  | 0, _ => 0
  | f + 1, n =>
    if n = 0 then 0
    else
      let r := sqrtFuel f (n / 4)
      if (2 * r + 1) * (2 * r + 1) ≤ n then 2 * r + 1 else 2 * r

/-- Integer square root, exact for `n < 4^128`. -/
def natSqrt (n : Nat) : Nat := sqrtFuel 128 n

/-- `f32::sqrt`, idealized over `ℚ`: exact on perfect squares (where the `f32`
operation is also exact for exactly-represented inputs), floor approximation of
`sqrt(num*den)/den` otherwise, `0` on non-positive input. -/
def ratSqrt (q : ℚ) : ℚ :=
  if q ≤ 0 then 0
  else
    let n := q.num.toNat
    let d := q.den
    if natSqrt n * natSqrt n = n ∧ natSqrt d * natSqrt d = d then
      (natSqrt n : ℚ) / (natSqrt d : ℚ)
    else
      (natSqrt (n * d) : ℚ) / (d : ℚ)

/-- The inclusive integer range `a..=b` of the Rust `for` loops, in iteration
order (empty when `b < a`). -/
def intRange (a b : ℤ) : List ℤ :=
  (List.range (b + 1 - a).toNat).map fun (i : ℕ) => a + (i : ℤ)

/-! ### Deterministic RNG (`Lcg`) -/

/-- The LCG multiplier `6364136223846793005`. -/
def lcgC : Nat := 6364136223846793005

/-- One state update of `Lcg::next_u32`:
`state = state.wrapping_mul(C).wrapping_add(1)` on `u64`. -/
def lcgAdvance (s : Nat) : Nat := (s * lcgC + 1) % 2 ^ 64

/-- `n` successive LCG state updates. -/
def lcgIter : Nat → Nat → Nat
  | 0, s => s
  | n + 1, s => lcgIter n (lcgAdvance s)

/-- The `u32` returned by `Lcg::next_u32` from state `s`:
the upper 32 bits of the updated state. -/
def u32val (s : Nat) : Nat := lcgAdvance s / 2 ^ 32

/-- Round `u` to the nearest multiple of `2^sh`, ties to the even multiple. -/
def roundAt (sh u : Nat) : Nat :=
  if u % 2 ^ sh < 2 ^ (sh - 1) then u / 2 ^ sh * 2 ^ sh
  else if 2 ^ (sh - 1) < u % 2 ^ sh then (u / 2 ^ sh + 1) * 2 ^ sh
  else (if (u / 2 ^ sh) % 2 = 0 then u / 2 ^ sh else u / 2 ^ sh + 1) * 2 ^ sh

/-- Round a natural number `u < 2^32` (true of every use: `u` is a `u32`) to
the nearest `f32` (24-bit significand, round to nearest, ties to even): the
exact value of Rust's `u as f32`.  The unit in the last place for
`u ∈ [2^(23+sh), 2^(24+sh))` is `2^sh`. -/
def roundf32 (u : Nat) : Nat :=
  if u < 2 ^ 24 then u
  else if u < 2 ^ 25 then roundAt 1 u
  else if u < 2 ^ 26 then roundAt 2 u
  else if u < 2 ^ 27 then roundAt 3 u
  else if u < 2 ^ 28 then roundAt 4 u
  else if u < 2 ^ 29 then roundAt 5 u
  else if u < 2 ^ 30 then roundAt 6 u
  else if u < 2 ^ 31 then roundAt 7 u
  else roundAt 8 u

/-- The exact `ℚ` value returned by `Lcg::next_f32` from state `s`:
`(next_u32() as f32) * (1 / 2^32)` with the cast rounding modelled. -/
def f32val (s : Nat) : ℚ := (roundf32 (u32val s) : ℚ) / 2 ^ 32

/-- `Lcg::next_f32` as a state transformer: returned value and new state. -/
def nextF32 (s : Nat) : ℚ × Nat := (f32val s, lcgAdvance s)

/-! ### Data model -/

/-- A movable circle (`struct Body`). -/
structure Body where
  x : ℚ
  y : ℚ
  vx : ℚ
  vy : ℚ
  radius : ℚ
deriving DecidableEq

/-- `struct Entity`: a stable id plus an optional body. -/
structure Entity where
  id : Nat
  body : Option Body
deriving DecidableEq

/-- One grid cell (`struct Cell`): body indices plus the last-written stamp. -/
structure Cell where
  items : List Nat
  stamp : Nat
deriving DecidableEq

/-- `struct SpatialGrid` of `lib.rs`: a `HashMap<u32, Cell>` (modelled as a
total function with default `⟨[], 0⟩`), the cell size, its reciprocal, and the
current epoch stamp. -/
structure SpatialGrid where
  cells : Nat → Cell
  cellSizeInv : ℚ
  cellSize : ℚ
  stamp : Nat

/-- `SpatialGrid::pack_key`: `((col + 2^15) & 0xffff) << 16 ^ ((row + 2^15) & 0xffff)`.
Since the masked column occupies the high 16 bits and the masked row the low 16
bits, the xor is a sum; `& 0xffff` on two's-complement integers is `mod 65536`. -/
def packKey (col row : ℤ) : Nat :=
  ((col + 32768) % 65536).toNat * 65536 + ((row + 32768) % 65536).toNat

/-- `SpatialGrid::new` (the `assert!(cell_size > 0.0)` precondition is
established separately at every use; `width`/`height` are ignored by the
source constructor as well). -/
def SpatialGrid.new (_width _height cellSize : ℚ) : SpatialGrid :=
  { cells := fun _ => ⟨[], 0⟩
    cellSizeInv := 1 / cellSize
    cellSize := cellSize
    stamp := 1 }

/-- `SpatialGrid::clear`: `stamp = stamp.wrapping_add(1)`; on wrap to 0 the map
is cleared and the stamp reset to 1. -/
def SpatialGrid.clear (g : SpatialGrid) : SpatialGrid :=
  let s := (g.stamp + 1) % 2 ^ 32
  if s = 0 then { g with cells := fun _ => ⟨[], 0⟩, stamp := 1 }
  else { g with stamp := s }

/-- The cell keys covered by a body's bounding square in `SpatialGrid::insert`,
in loop order (`col` outer, `row` inner). -/
def SpatialGrid.insertKeys (g : SpatialGrid) (x y radius : ℚ) : List Nat :=
  let minCol := ⌊(x - radius) * g.cellSizeInv⌋
  let maxCol := ⌊(x + radius) * g.cellSizeInv⌋
  let minRow := ⌊(y - radius) * g.cellSizeInv⌋
  let maxRow := ⌊(y + radius) * g.cellSizeInv⌋
  (intRange minCol maxCol).flatMap fun c => (intRange minRow maxRow).map fun r => packKey c r

/-- The body of `SpatialGrid::insert` for one cell: lazily clear a stale cell,
stamp it, push the index. -/
def touchCell (gstamp : Nat) (cs : Nat → Cell) (index k : Nat) : Nat → Cell :=
  fun k' =>
    if k' = k then
      let c := cs k
      if c.stamp = gstamp then ⟨c.items ++ [index], c.stamp⟩ else ⟨[index], gstamp⟩
    else cs k'

/-- `SpatialGrid::insert`. -/
def SpatialGrid.insert (g : SpatialGrid) (index : Nat) (x y radius : ℚ) : SpatialGrid :=
  { g with cells := (g.insertKeys x y radius).foldl (fun cs k => touchCell g.stamp cs index k) g.cells }

/-- The cell keys visited by `SpatialGrid::query`: the bounding-square range
expanded by one cell ring in each direction, in loop order. -/
def SpatialGrid.queryKeys (g : SpatialGrid) (x y radius : ℚ) : List Nat :=
  let minCol := ⌊(x - radius) * g.cellSizeInv⌋ - 1
  let maxCol := ⌊(x + radius) * g.cellSizeInv⌋ + 1
  let minRow := ⌊(y - radius) * g.cellSizeInv⌋ - 1
  let maxRow := ⌊(y + radius) * g.cellSizeInv⌋ + 1
  (intRange minCol maxCol).flatMap fun c => (intRange minRow maxRow).map fun r => packKey c r

/-- The per-index step of `SpatialGrid::query`'s deduplication: the state is
`(out, seen)`; `seen.insert(idx)` succeeding pushes onto `out`. -/
def dedupStep (st : List Nat × List Nat) (idx : Nat) : List Nat × List Nat :=
  if idx ∈ st.2 then st else (st.1 ++ [idx], idx :: st.2)

/-- Processing of one visited cell in `SpatialGrid::query`: cells whose stamp
does not match the epoch are skipped. -/
def queryCellStep (g : SpatialGrid) (st : List Nat × List Nat) (k : Nat) : List Nat × List Nat :=
  let cell := g.cells k
  if cell.stamp = g.stamp then cell.items.foldl dedupStep st else st

/-- `SpatialGrid::query`: the deduplicated union, in visit order, of the items
of all epoch-valid cells in the expanded range. -/
def SpatialGrid.query (g : SpatialGrid) (x y radius : ℚ) : List Nat :=
  ((g.queryKeys x y radius).foldl (queryCellStep g) ([], [])).1

/-- `SpatialGrid::set_cell_size`: `assert!(cell_size > 0.0)` (modelled as
`none` on failure), then store the size and its reciprocal, clear the map and
reset the stamp to 1. -/
def SpatialGrid.setCellSize (g : SpatialGrid) (cellSize : ℚ) : Option SpatialGrid :=
  if 0 < cellSize then
    some { g with cells := fun _ => ⟨[], 0⟩, cellSizeInv := 1 / cellSize, cellSize := cellSize, stamp := 1 }
  else none

/-! ### World -/

/-- `struct World`. -/
structure World where
  entities : List Entity
  width : ℚ
  height : ℚ
  spatialGrid : SpatialGrid

/-- One axis of the wall handling in `World::update`: if the circle crosses the
low wall, clamp to tangency and force the velocity positive (`vx.abs()`); else
if it crosses the high wall, clamp and force it negative (`-vx.abs()`). -/
def clampAxis (limit pos vel radius : ℚ) : ℚ × ℚ :=
  if pos - radius < 0 then (radius, |vel|)
  else if limit < pos + radius then (limit - radius, -|vel|)
  else (pos, vel)

/-- The per-body integration + wall phase of `World::update`:
`x += vx*dt; y += vy*dt` followed by the two independent axis clamps. -/
def Body.moveClamp (width height dt : ℚ) (b : Body) : Body :=
  let px := clampAxis width (b.x + b.vx * dt) b.vx b.radius
  let py := clampAxis height (b.y + b.vy * dt) b.vy b.radius
  ⟨px.1, py.1, px.2, py.2, b.radius⟩

/-- `dx*dx + dy*dy` for the pair `(A, B)` of the narrow phase. -/
def pairD2 (a b : Body) : ℚ :=
  (b.x - a.x) * (b.x - a.x) + (b.y - a.y) * (b.y - a.y)

/-- `min_dist = a.radius + b.radius`. -/
def pairMinDist (a b : Body) : ℚ := a.radius + b.radius

/-- `distance = d2.sqrt()`. -/
def pairDist (a b : Body) : ℚ := ratSqrt (pairD2 a b)

/-- `nx = dx / distance`. -/
def pairNx (a b : Body) : ℚ := (b.x - a.x) / pairDist a b

/-- `ny = dy / distance`. -/
def pairNy (a b : Body) : ℚ := (b.y - a.y) / pairDist a b

/-- `vn = (a.vx - b.vx) * nx + (a.vy - b.vy) * ny`. -/
def pairVn (a b : Body) : ℚ :=
  (a.vx - b.vx) * pairNx a b + (a.vy - b.vy) * pairNy a b

/-- `overlap = min_dist - distance`. -/
def pairOverlap (a b : Body) : ℚ := pairMinDist a b - pairDist a b

/-- The narrow-phase resolution of one candidate pair, exactly as the loop body
of `World::update` in `lib.rs`: skip when `d2 <= 0`, when `d2 >= min_dist^2`,
or when `vn <= 0`; otherwise apply the impulse `vn` along the normal and
separate both bodies by `overlap * 0.5` along it. -/
def resolvePair (a b : Body) : Body × Body :=
  if pairD2 a b ≤ 0 then (a, b)
  else if pairMinDist a b * pairMinDist a b ≤ pairD2 a b then (a, b)
  else if pairVn a b ≤ 0 then (a, b)
  else
    ({ a with
        vx := a.vx - pairVn a b * pairNx a b
        vy := a.vy - pairVn a b * pairNy a b
        x := a.x - pairNx a b * pairOverlap a b * (1 / 2)
        y := a.y - pairNy a b * pairOverlap a b * (1 / 2) },
     { b with
        vx := b.vx + pairVn a b * pairNx a b
        vy := b.vy + pairVn a b * pairNy a b
        x := b.x + pairNx a b * pairOverlap a b * (1 / 2)
        y := b.y + pairNy a b * pairOverlap a b * (1 / 2) })

/-- The first loop of `World::update`: in collection order, move and wall-clamp
every body and insert it into the grid under its collection index (bodiless
entities advance the index without touching the grid). -/
def integrateStep (width height dt : ℚ) (acc : List Entity × SpatialGrid × Nat) (e : Entity) :
    List Entity × SpatialGrid × Nat :=
  match e.body with
  | none => (acc.1 ++ [e], acc.2.1, acc.2.2 + 1)
  | some b =>
    let bMoved := b.moveClamp width height dt
    (acc.1 ++ [{ e with body := some bMoved }],
     acc.2.1.insert acc.2.2 bMoved.x bMoved.y bMoved.radius,
     acc.2.2 + 1)

/-- Phase 1+2 of `World::update`: `grid.clear()` then the integration loop. -/
def World.integrateAndFill (w : World) (dt : ℚ) : World :=
  let folded := w.entities.foldl (integrateStep w.width w.height dt) ([], w.spatialGrid.clear, 0)
  { w with entities := folded.1, spatialGrid := folded.2.1 }

/-- Resolution of one candidate `j` against `i` (`j <= i` is skipped; both
slots must currently hold bodies). -/
def resolvePairAt (es : List Entity) (i j : Nat) : List Entity :=
  if j ≤ i then es
  else
    match es[i]?, es[j]? with
    | some ea, some eb =>
      match ea.body, eb.body with
      | some a, some b =>
        let ab := resolvePair a b
        (es.set i { ea with body := some ab.1 }).set j { eb with body := some ab.2 }
      | _, _ => es
    | _, _ => es

/-- One iteration of the narrow-phase outer loop: query the grid around body
`i`'s (possibly already updated) position and resolve each candidate. -/
def resolveIndex (g : SpatialGrid) (es : List Entity) (i : Nat) : List Entity :=
  match es[i]? with
  | some e =>
    match e.body with
    | some ba => (g.query ba.x ba.y ba.radius).foldl (fun es2 j => resolvePairAt es2 i j) es
    | none => es
  | none => es

/-- `World::update`: clear + integrate/fill, then the narrow phase over all
indices. -/
def World.update (w : World) (dt : ℚ) : World :=
  let w1 := w.integrateAndFill dt
  { w1 with
      entities := (List.range w1.entities.length).foldl (resolveIndex w1.spatialGrid) w1.entities }

/-- The collision scan of `World::add_entity`: does the candidate circle
overlap any existing body (`dx*dx + dy*dy < min_dist*min_dist`)? -/
def collidesAny (es : List Entity) (x y radius : ℚ) : Bool :=
  es.any fun o =>
    match o.body with
    | some ob =>
      decide ((x - ob.x) * (x - ob.x) + (y - ob.y) * (y - ob.y) <
        (radius + ob.radius) * (radius + ob.radius))
    | none => false

/-- The bounded placement loop of `World::add_entity`: up to `fuel` attempts,
each drawing `x` then `y`; stop at the first non-colliding candidate. -/
def attemptLoop (w : World) (radius : ℚ) (rng : Nat) : Nat → Option (ℚ × ℚ) × Nat
  | 0 => (none, rng)
  | fuel + 1 =>
    let rx := nextF32 rng
    let x := rx.1 * w.width
    let ry := nextF32 rx.2
    let y := ry.1 * w.height
    if collidesAny w.entities x y radius then attemptLoop w radius ry.2 fuel
    else (some (x, y), ry.2)

/-- `World::add_entity`: bodiless entities are appended as-is; otherwise run
100 placement attempts, and if none succeeded draw two fresh coordinates
(unchecked) for the final position. -/
def World.addEntity (w : World) (e : Entity) (rng : Nat) : World × Nat :=
  match e.body with
  | none => ({ w with entities := w.entities ++ [e] }, rng)
  | some b =>
    let res := attemptLoop w b.radius rng 100
    match res.1 with
    | some pos =>
      ({ w with entities := w.entities ++ [{ e with body := some { b with x := pos.1, y := pos.2 } }] },
       res.2)
    | none =>
      let fx := nextF32 res.2
      let fy := nextF32 fx.2
      ({ w with entities := w.entities ++
          [{ e with body := some { b with x := fx.1 * w.width, y := fy.1 * w.height } }] },
       fy.2)

/-- `World::remove_entities`: truncate the entity list to its first half. -/
def World.removeEntities (w : World) : World :=
  { w with entities := w.entities.take (w.entities.length / 2) }

/-- `World::scale_radii`. -/
def World.scaleRadii (w : World) (factor : ℚ) : World :=
  { w with entities := w.entities.map fun e =>
      match e.body with
      | some b => { e with body := some { b with radius := b.radius * factor } }
      | none => e }

/-- `impl Clone for World`: entities and dimensions are copied, the grid is a
fresh one of the same cell size. -/
def World.clone (w : World) : World :=
  { w with spatialGrid := SpatialGrid.new w.width w.height w.spatialGrid.cellSize }

/-! ### Simulation -/

/-- `WORLD_WIDTH`. -/
def WORLD_WIDTH : ℚ := 2500

/-- `WORLD_HEIGHT`. -/
def WORLD_HEIGHT : ℚ := 1200

/-- `INITIAL_CELL_SIZE`. -/
def INITIAL_CELL_SIZE : ℚ := 24

/-- `MIN_CELL_SIZE`. -/
def MIN_CELL_SIZE : ℚ := 8

/-- The flat exported record (`EntityRaw`); `has_body` is the `u32` 1/0 flag
and a bodiless entity carries the zeroed `BodyRaw`. -/
structure EntityRaw where
  id : Nat
  hasBody : Nat
  body : Body
deriving DecidableEq

/-- `Simulation::write_entities`. -/
def writeEntities (es : List Entity) : List EntityRaw :=
  es.map fun e =>
    match e.body with
    | some b => ⟨e.id, 1, b⟩
    | none => ⟨e.id, 0, ⟨0, 0, 0, 0, 0⟩⟩

/-- `struct Simulation`. -/
structure Simulation where
  world : World
  rng : Nat
  nextEntityId : Nat
  stateCache : List EntityRaw
  previewCache : List EntityRaw

/-- `Simulation::update`: a no-op unless `delta_time > 0`; otherwise step the
world and refresh the state cache (which also clears the preview cache). -/
def Simulation.update (sim : Simulation) (dt : ℚ) : Simulation :=
  if 0 < dt then
    let wNew := sim.world.update dt
    { sim with world := wNew, stateCache := writeEntities wNew.entities, previewCache := [] }
  else sim

/-- `Simulation::build_preview`: clone the world, step the clone when
`delta_time > 0`, and write its entities into the preview cache. -/
def Simulation.buildPreview (sim : Simulation) (dt : ℚ) : Simulation :=
  let pw := sim.world.clone
  let pw2 := if 0 < dt then pw.update dt else pw
  { sim with previewCache := writeEntities pw2.entities }

/-- `Simulation::remove_half_entities`. -/
def Simulation.removeHalfEntities (sim : Simulation) : Simulation :=
  let wNew := sim.world.removeEntities
  { sim with world := wNew, stateCache := writeEntities wNew.entities, previewCache := [] }

/-- `Simulation::set_grid_cell_size`: clamp into `[MIN_CELL_SIZE,
max(WORLD_WIDTH, WORLD_HEIGHT)]`, apply to the grid, return the clamped value. -/
def Simulation.setGridCellSize (sim : Simulation) (size : ℚ) : Option (ℚ × Simulation) :=
  let maxCell := max WORLD_WIDTH WORLD_HEIGHT
  let clamped := rustClamp size MIN_CELL_SIZE maxCell
  (sim.world.spatialGrid.setCellSize clamped).map fun gNew =>
    (clamped, { sim with world := { sim.world with spatialGrid := gNew } })

/-! ### Invariants and observations -/

/-- The logically valid contents of a grid cell: its items when its stamp
matches the epoch, empty otherwise (the lazy-clear reading discipline shared by
`insert` and `query`). -/
def effectiveItems (g : SpatialGrid) (k : Nat) : List Nat :=
  if (g.cells k).stamp = g.stamp then (g.cells k).items else []

/-- Invariant of every reachable grid: positive cell size with cached
reciprocal, epoch stamp in `[1, 2^32)`, and no cell stamped ahead of the
epoch. -/
def GridInv (g : SpatialGrid) : Prop :=
  0 < g.cellSize ∧ g.cellSizeInv = 1 / g.cellSize ∧
    1 ≤ g.stamp ∧ g.stamp < 2 ^ 32 ∧ ∀ k, (g.cells k).stamp ≤ g.stamp

/-- Observational equivalence of grids: same coordinate-to-cell mapping and
same valid contents everywhere. -/
def GridR (g₁ g₂ : SpatialGrid) : Prop :=
  g₁.cellSizeInv = g₂.cellSizeInv ∧ ∀ k, effectiveItems g₁ k = effectiveItems g₂ k

/-- Folding a whole list of per-frame insertions (used to state broad-phase
completeness). -/
def insertList (g : SpatialGrid) (bs : List (Nat × ℚ × ℚ × ℚ)) : SpatialGrid :=
  bs.foldl (fun gAcc bb => gAcc.insert bb.1 bb.2.1 bb.2.2.1 bb.2.2.2) g

/-! ### Concrete instances used by counterexamples and witnesses -/

/-- A 100×100 world, cell size 10, with two overlapping bodies: after one step
the pair separation pushes body 0 past the left wall. -/
def exWorldSep : World :=
  ⟨[⟨1, some ⟨10, 50, 0, 0, 10⟩⟩, ⟨2, some ⟨21, 58, -5, 0, 10⟩⟩], 100, 100,
    SpatialGrid.new 100 100 10⟩

/-- A 100×100 world (cell size 100) with a single body of radius 80: the wall
clamp cannot satisfy both sides when the diameter exceeds the world. -/
def exWorldBig : World :=
  ⟨[⟨1, some ⟨50, 50, 0, 0, 80⟩⟩], 100, 100, SpatialGrid.new 100 100 100⟩

/-- A 100×100 world saturated by one giant body: every placement attempt
collides. -/
def exWorldFull : World :=
  ⟨[⟨1, some ⟨50, 50, 0, 0, 1000000⟩⟩], 100, 100, SpatialGrid.new 100 100 10⟩

/-- The entity added to `exWorldFull` in the placement counterexample. -/
def exEntityNew : Entity := ⟨2, some ⟨0, 0, 0, 0, 1⟩⟩

/-- A small simulation state (world of `exWorldSep`, synced caches). -/
def exSim : Simulation :=
  ⟨exWorldSep, 42, 3, writeEntities exWorldSep.entities, []⟩

/-- An LCG state whose next `u32` output is `2^32 - 1`, which rounds up to
`2^32` under `u32 -> f32` conversion. -/
def exSeedTop : Nat := 921522495643834203

/-- A cell that holds index `i` validly for the current epoch. -/
def CellHas (g : SpatialGrid) (k i : Nat) : Prop :=
  (g.cells k).stamp = g.stamp ∧ i ∈ (g.cells k).items

/-- The out/seen lists of the query deduplication hold the same members. -/
def DStInv (st : List Nat × List Nat) : Prop := ∀ x, x ∈ st.1 ↔ x ∈ st.2

/-- The valid contents of a raw cell store under a given epoch stamp. -/
def effAux (gstamp : Nat) (cs : Nat → Cell) (k : Nat) : List Nat :=
  if (cs k).stamp = gstamp then (cs k).items else []

/-! ## Supporting lemmas -/

theorem rustClamp_mem (x lo hi : ℚ) (h : lo ≤ hi) :
    lo ≤ rustClamp x lo hi ∧ rustClamp x lo hi ≤ hi := by
  unfold rustClamp
  split_ifs with h1 h2 <;> constructor <;> linarith

theorem clampAxis_mem (limit pos vel radius : ℚ) (h : 2 * radius ≤ limit) :
    radius ≤ (clampAxis limit pos vel radius).1 ∧
      (clampAxis limit pos vel radius).1 ≤ limit - radius := by
  unfold clampAxis
  split_ifs with h1 h2 <;> dsimp only <;> constructor <;> linarith

/-! ## Claims -/

set_option maxRecDepth 400000 in
unseal Rat.add Rat.mul Rat.inv Rat.sub in
/-- C1 (counterexample): after a full step, wall containment can fail.  In
`exWorldSep` the narrow-phase separation pushes body 0 (radius 10) to
`x = 7 < 10`; in `exWorldBig` the single radius-80 body ends at `x = 80` with
`width - radius = 20`, so `x ≤ width - radius` fails as well. -/
theorem c1_counterexample :
    ((exWorldSep.update 1).entities.map Entity.body =
        [some ⟨7, 46, -9/5, -12/5, 10⟩, some ⟨19, 62, -16/5, 12/5, 10⟩]
      ∧ ¬ ((10 : ℚ) ≤ 7))
    ∧ ((exWorldBig.update 1).entities.map Entity.body = [some ⟨80, 80, 0, 0, 80⟩]
      ∧ ¬ ((80 : ℚ) ≤ 100 - 80)) := by
  decide

/-- C1 (amended): after the integrate-and-wall-clamp phase of the step, every
body whose diameter fits the world satisfies
`radius ≤ x ≤ width - radius` and `radius ≤ y ≤ height - radius`, with no
assumption on the starting position (an out-of-bounds body is clamped back
in). -/
theorem c1_wall_clamp_containment (width height dt : ℚ) (b : Body)
    (hw : 2 * b.radius ≤ width) (hh : 2 * b.radius ≤ height) :
    b.radius ≤ (b.moveClamp width height dt).x ∧
      (b.moveClamp width height dt).x ≤ width - b.radius ∧
      b.radius ≤ (b.moveClamp width height dt).y ∧
      (b.moveClamp width height dt).y ≤ height - b.radius ∧
      (b.moveClamp width height dt).radius = b.radius := by
  obtain ⟨hx1, hx2⟩ := clampAxis_mem width (b.x + b.vx * dt) b.vx b.radius hw
  obtain ⟨hy1, hy2⟩ := clampAxis_mem height (b.y + b.vy * dt) b.vy b.radius hh
  exact ⟨hx1, hx2, hy1, hy2, rfl⟩

unseal Rat.add Rat.mul Rat.inv Rat.sub in
/-- C1 (witness): a body starting far out of bounds at `(300, -50)` is clamped
into `[10, 90]²` of the 100×100 world by the wall phase. -/
theorem c1_wall_clamp_containment_witness :
    2 * (Body.mk 300 (-50) 4 (-3) 10).radius ≤ 100 ∧
      (10 : ℚ) ≤ ((Body.mk 300 (-50) 4 (-3) 10).moveClamp 100 100 1).x ∧
      ((Body.mk 300 (-50) 4 (-3) 10).moveClamp 100 100 1).x ≤ 100 - 10 := by
  refine ⟨by norm_num, ?_, ?_⟩
  · exact (c1_wall_clamp_containment 100 100 1 ⟨300, -50, 4, -3, 10⟩
      (by norm_num) (by norm_num)).1
  · exact (c1_wall_clamp_containment 100 100 1 ⟨300, -50, 4, -3, 10⟩
      (by norm_num) (by norm_num)).2.1

unseal Rat.add Rat.mul Rat.inv Rat.sub in
/-- C2 (counterexample): for an overlapping pair that is moving apart
(`vn ≤ 0`), the narrow phase of `lib.rs` skips the pair entirely: the
positional separation of `overlap/2` along the normal (a nonzero displacement
here) is NOT applied. -/
theorem c2_counterexample :
    (0 : ℚ) < pairD2 ⟨10, 50, -1, 0, 10⟩ ⟨16, 58, 1, 0, 10⟩
    ∧ pairD2 ⟨10, 50, -1, 0, 10⟩ ⟨16, 58, 1, 0, 10⟩ <
        pairMinDist ⟨10, 50, -1, 0, 10⟩ ⟨16, 58, 1, 0, 10⟩ *
          pairMinDist ⟨10, 50, -1, 0, 10⟩ ⟨16, 58, 1, 0, 10⟩
    ∧ pairVn ⟨10, 50, -1, 0, 10⟩ ⟨16, 58, 1, 0, 10⟩ ≤ 0
    ∧ resolvePair ⟨10, 50, -1, 0, 10⟩ ⟨16, 58, 1, 0, 10⟩ =
        (⟨10, 50, -1, 0, 10⟩, ⟨16, 58, 1, 0, 10⟩)
    ∧ pairNx ⟨10, 50, -1, 0, 10⟩ ⟨16, 58, 1, 0, 10⟩ *
        pairOverlap ⟨10, 50, -1, 0, 10⟩ ⟨16, 58, 1, 0, 10⟩ * (1/2) ≠ 0 := by
  decide

/-- C2 (amended): in the narrow phase of `lib.rs`, an overlapping pair with
`vn ≤ 0` is skipped entirely — neither the velocity change nor the positional
separation is applied; the `overlap/2` symmetric separation happens exactly
when `vn > 0`, together with the impulse. -/
theorem c2_separation (a b : Body) (h0 : 0 < pairD2 a b)
    (hov : pairD2 a b < pairMinDist a b * pairMinDist a b) :
    (pairVn a b ≤ 0 → resolvePair a b = (a, b)) ∧
    (0 < pairVn a b →
      (resolvePair a b).1.x = a.x - pairNx a b * pairOverlap a b * (1/2) ∧
      (resolvePair a b).1.y = a.y - pairNy a b * pairOverlap a b * (1/2) ∧
      (resolvePair a b).2.x = b.x + pairNx a b * pairOverlap a b * (1/2) ∧
      (resolvePair a b).2.y = b.y + pairNy a b * pairOverlap a b * (1/2)) := by
  unfold resolvePair
  rw [if_neg (not_le.mpr h0), if_neg (not_le.mpr hov)]
  constructor
  · intro hvn
    rw [if_pos hvn]
  · intro hvn
    rw [if_neg (not_le.mpr hvn)]
    exact ⟨rfl, rfl, rfl, rfl⟩

unseal Rat.add Rat.mul Rat.inv Rat.sub in
/-- C2 (witness): a concrete overlapping, separating pair is left untouched. -/
theorem c2_separation_witness :
    (0 : ℚ) < pairD2 ⟨0, 0, -1, 0, 2⟩ ⟨3, 0, 1, 0, 2⟩
    ∧ pairD2 ⟨0, 0, -1, 0, 2⟩ ⟨3, 0, 1, 0, 2⟩ <
        pairMinDist ⟨0, 0, -1, 0, 2⟩ ⟨3, 0, 1, 0, 2⟩ *
          pairMinDist ⟨0, 0, -1, 0, 2⟩ ⟨3, 0, 1, 0, 2⟩
    ∧ resolvePair ⟨0, 0, -1, 0, 2⟩ ⟨3, 0, 1, 0, 2⟩ = (⟨0, 0, -1, 0, 2⟩, ⟨3, 0, 1, 0, 2⟩) := by
  refine ⟨by decide, by decide, ?_⟩
  exact (c2_separation ⟨0, 0, -1, 0, 2⟩ ⟨3, 0, 1, 0, 2⟩ (by decide) (by decide)).1 (by decide)

/-- C9: whenever the impulse branch runs (`vn > 0` on an overlapping pair with
a well-defined normal), A's velocity changes by `-vn·n` and B's by `+vn·n`, so
the componentwise sum of the two velocities is conserved and both bodies'
tangential components (against `t = (-ny, nx)`) are untouched. -/
theorem c9_impulse (a b : Body) (h0 : 0 < pairD2 a b)
    (hov : pairD2 a b < pairMinDist a b * pairMinDist a b) (hvn : 0 < pairVn a b) :
    (resolvePair a b).1.vx = a.vx - pairVn a b * pairNx a b ∧
    (resolvePair a b).1.vy = a.vy - pairVn a b * pairNy a b ∧
    (resolvePair a b).2.vx = b.vx + pairVn a b * pairNx a b ∧
    (resolvePair a b).2.vy = b.vy + pairVn a b * pairNy a b ∧
    (resolvePair a b).1.vx + (resolvePair a b).2.vx = a.vx + b.vx ∧
    (resolvePair a b).1.vy + (resolvePair a b).2.vy = a.vy + b.vy ∧
    (resolvePair a b).1.vx * (-(pairNy a b)) + (resolvePair a b).1.vy * pairNx a b =
      a.vx * (-(pairNy a b)) + a.vy * pairNx a b ∧
    (resolvePair a b).2.vx * (-(pairNy a b)) + (resolvePair a b).2.vy * pairNx a b =
      b.vx * (-(pairNy a b)) + b.vy * pairNx a b := by
  unfold resolvePair
  rw [if_neg (not_le.mpr h0), if_neg (not_le.mpr hov), if_neg (not_le.mpr hvn)]
  refine ⟨rfl, rfl, rfl, rfl, by ring, by ring, by ring, by ring⟩

unseal Rat.add Rat.mul Rat.inv Rat.sub in
/-- C9 (witness): a concrete head-on pair conserves the velocity sum. -/
theorem c9_impulse_witness :
    (0 : ℚ) < pairVn ⟨0, 0, 1, 0, 2⟩ ⟨3, 0, -1, 0, 2⟩
    ∧ (resolvePair ⟨0, 0, 1, 0, 2⟩ ⟨3, 0, -1, 0, 2⟩).1.vx +
        (resolvePair ⟨0, 0, 1, 0, 2⟩ ⟨3, 0, -1, 0, 2⟩).2.vx =
        (0 : ℚ) + 0 := by
  refine ⟨by decide, ?_⟩
  have h := (c9_impulse ⟨0, 0, 1, 0, 2⟩ ⟨3, 0, -1, 0, 2⟩ (by decide) (by decide)
    (by decide)).2.2.2.2.1
  simpa using h

/-- C10: `sim_remove_half_entities` truncates the entity list to its first
`⌊n/2⌋` entries; every surviving entity keeps its index, id and body, and the
world's dimensions and grid are untouched. -/
theorem c10_remove_half (sim : Simulation) :
    (sim.removeHalfEntities).world.entities =
        sim.world.entities.take (sim.world.entities.length / 2) ∧
    (sim.removeHalfEntities).world.entities.length = sim.world.entities.length / 2 ∧
    (∀ i, i < sim.world.entities.length / 2 →
      (sim.removeHalfEntities).world.entities[i]? = sim.world.entities[i]?) ∧
    (sim.removeHalfEntities).world.width = sim.world.width ∧
    (sim.removeHalfEntities).world.height = sim.world.height ∧
    (sim.removeHalfEntities).world.spatialGrid = sim.world.spatialGrid := by
  refine ⟨rfl, ?_, ?_, rfl, rfl, rfl⟩
  · simp only [Simulation.removeHalfEntities, World.removeEntities, List.length_take]
    exact Nat.min_eq_left (Nat.div_le_self _ _)
  · intro i hi
    simp only [Simulation.removeHalfEntities, World.removeEntities]
    exact List.getElem?_take_of_lt hi

/-- C10 (witness): in a two-entity simulation the survivor keeps its slot. -/
theorem c10_remove_half_witness :
    0 < exSim.world.entities.length / 2 ∧
      (exSim.removeHalfEntities).world.entities[0]? = exSim.world.entities[0]? := by
  exact ⟨by decide, (c10_remove_half exSim).2.2.1 0 (by decide)⟩

/-- C6: `setCellSize` never fails: for every requested size the applied and
returned value is the request clamped into
`[MIN_CELL_SIZE, max(WORLD_WIDTH, WORLD_HEIGHT)]`; in particular `-5` yields
the configured minimum and `10^9` yields `max(width, height)`. -/
theorem c6_set_cell_size (sim : Simulation) (size : ℚ) :
    (sim.setGridCellSize size).isSome = true ∧
    (sim.setGridCellSize size).map Prod.fst =
      some (rustClamp size MIN_CELL_SIZE (max WORLD_WIDTH WORLD_HEIGHT)) ∧
    (sim.setGridCellSize size).map (fun p => p.2.world.spatialGrid.cellSize) =
      some (rustClamp size MIN_CELL_SIZE (max WORLD_WIDTH WORLD_HEIGHT)) ∧
    MIN_CELL_SIZE ≤ rustClamp size MIN_CELL_SIZE (max WORLD_WIDTH WORLD_HEIGHT) ∧
    rustClamp size MIN_CELL_SIZE (max WORLD_WIDTH WORLD_HEIGHT) ≤
      max WORLD_WIDTH WORLD_HEIGHT ∧
    (sim.setGridCellSize (-5)).map Prod.fst = some MIN_CELL_SIZE ∧
    (sim.setGridCellSize (10^9)).map Prod.fst = some (max WORLD_WIDTH WORLD_HEIGHT) := by
  have hb : MIN_CELL_SIZE ≤ max WORLD_WIDTH WORLD_HEIGHT := by
    rw [MIN_CELL_SIZE, WORLD_WIDTH, WORLD_HEIGHT]
    norm_num
  have hmin : (0 : ℚ) < MIN_CELL_SIZE := by rw [MIN_CELL_SIZE]; norm_num
  have hmem := rustClamp_mem size MIN_CELL_SIZE (max WORLD_WIDTH WORLD_HEIGHT) hb
  have hpos : 0 < rustClamp size MIN_CELL_SIZE (max WORLD_WIDTH WORLD_HEIGHT) := by
    linarith [hmem.1]
  have hlo : rustClamp (-5) MIN_CELL_SIZE (max WORLD_WIDTH WORLD_HEIGHT) = MIN_CELL_SIZE := by
    rw [rustClamp, if_pos]
    rw [MIN_CELL_SIZE]; norm_num
  have hhi : rustClamp (10^9) MIN_CELL_SIZE (max WORLD_WIDTH WORLD_HEIGHT) =
      max WORLD_WIDTH WORLD_HEIGHT := by
    rw [rustClamp, if_neg, if_pos]
    · rw [WORLD_WIDTH, WORLD_HEIGHT]; norm_num
    · intro hcon
      rw [MIN_CELL_SIZE] at hcon
      norm_num at hcon
  refine ⟨?_, ?_, ?_, hmem.1, hmem.2, ?_, ?_⟩
  · simp only [Simulation.setGridCellSize, SpatialGrid.setCellSize, if_pos hpos,
      Option.map_some', Option.isSome_some]
  · simp only [Simulation.setGridCellSize, SpatialGrid.setCellSize, if_pos hpos,
      Option.map_some']
  · simp only [Simulation.setGridCellSize, SpatialGrid.setCellSize, if_pos hpos,
      Option.map_some']
  · rw [Simulation.setGridCellSize, hlo, SpatialGrid.setCellSize, if_pos hmin,
      Option.map_some']
    rfl
  · have hposB : (0:ℚ) < rustClamp (10^9) MIN_CELL_SIZE (max WORLD_WIDTH WORLD_HEIGHT) := by
      rw [hhi]
      linarith [hb]
    rw [Simulation.setGridCellSize, SpatialGrid.setCellSize, if_pos hposB,
      Option.map_some', hhi]
    rfl

theorem lcgIter_succ_right (n s : Nat) : lcgIter (n + 1) s = lcgAdvance (lcgIter n s) := by
  induction n generalizing s with
  | zero => rfl
  | succ m ih =>
    show lcgIter (m + 1) (lcgAdvance s) = lcgAdvance (lcgIter (m + 1) s)
    rw [ih (lcgAdvance s)]
    rfl

theorem u32val_lt (s : Nat) : u32val s < 2 ^ 32 := by
  have h : lcgAdvance s < 2 ^ 64 := Nat.mod_lt _ (by norm_num)
  unfold u32val
  omega

theorem roundAt_le_mul (sh u B : Nat) (hu : u < 2 ^ sh * B) : roundAt sh u ≤ 2 ^ sh * B := by
  have hq : u / 2 ^ sh < B := Nat.div_lt_of_lt_mul hu
  have hq1 : u / 2 ^ sh + 1 ≤ B := hq
  have h1 : (u / 2 ^ sh + 1) * 2 ^ sh ≤ B * 2 ^ sh := Nat.mul_le_mul_right _ hq1
  have h0 : u / 2 ^ sh * 2 ^ sh ≤ (u / 2 ^ sh + 1) * 2 ^ sh :=
    Nat.mul_le_mul_right _ (Nat.le_succ _)
  have hBE : B * 2 ^ sh = 2 ^ sh * B := Nat.mul_comm _ _
  unfold roundAt
  split_ifs <;> omega

theorem roundAt_le_add_half (sh u : Nat) (hsh : 1 ≤ sh) : roundAt sh u ≤ u + 2 ^ (sh - 1) := by
  have hE : 0 < 2 ^ sh := pow_pos (by norm_num) sh
  have hdm := Nat.div_add_mod u (2 ^ sh)
  have hmod : u % 2 ^ sh < 2 ^ sh := Nat.mod_lt _ hE
  have hHH : 2 ^ (sh - 1) + 2 ^ (sh - 1) = 2 ^ sh := by
    calc 2 ^ (sh - 1) + 2 ^ (sh - 1) = 2 ^ (sh - 1) * 2 := by ring
      _ = 2 ^ (sh - 1 + 1) := (pow_succ 2 (sh - 1)).symm
      _ = 2 ^ sh := by rw [Nat.sub_add_cancel hsh]
  have h1 : (u / 2 ^ sh + 1) * 2 ^ sh = 2 ^ sh * (u / 2 ^ sh) + 2 ^ sh := by ring
  have h0 : u / 2 ^ sh * 2 ^ sh = 2 ^ sh * (u / 2 ^ sh) := by ring
  unfold roundAt
  split_ifs <;> omega

theorem roundf32_le_pow32 (u : Nat) (hu : u < 2 ^ 32) : roundf32 u ≤ 2 ^ 32 := by
  unfold roundf32
  split_ifs with h1 h2 h3 h4 h5 h6 h7 h8
  · omega
  · exact le_trans (roundAt_le_mul 1 u (2 ^ 24) (by omega)) (by norm_num)
  · exact le_trans (roundAt_le_mul 2 u (2 ^ 24) (by omega)) (by norm_num)
  · exact le_trans (roundAt_le_mul 3 u (2 ^ 24) (by omega)) (by norm_num)
  · exact le_trans (roundAt_le_mul 4 u (2 ^ 24) (by omega)) (by norm_num)
  · exact le_trans (roundAt_le_mul 5 u (2 ^ 24) (by omega)) (by norm_num)
  · exact le_trans (roundAt_le_mul 6 u (2 ^ 24) (by omega)) (by norm_num)
  · exact le_trans (roundAt_le_mul 7 u (2 ^ 24) (by omega)) (by norm_num)
  · exact le_trans (roundAt_le_mul 8 u (2 ^ 24) (by omega)) (by norm_num)

theorem roundf32_lt_pow32 (u : Nat) (hu : u < 2 ^ 32 - 128) : roundf32 u < 2 ^ 32 := by
  unfold roundf32
  split_ifs with h1 h2 h3 h4 h5 h6 h7 h8
  · omega
  · have := roundAt_le_add_half 1 u (by norm_num); omega
  · have := roundAt_le_add_half 2 u (by norm_num); omega
  · have := roundAt_le_add_half 3 u (by norm_num); omega
  · have := roundAt_le_add_half 4 u (by norm_num); omega
  · have := roundAt_le_add_half 5 u (by norm_num); omega
  · have := roundAt_le_add_half 6 u (by norm_num); omega
  · have := roundAt_le_add_half 7 u (by norm_num); omega
  · have := roundAt_le_add_half 8 u (by norm_num); omega

unseal Rat.add Rat.mul Rat.inv Rat.sub in
/-- C8 (counterexample): from the LCG state `exSeedTop`, `next_u32` returns
`2^32 - 1`, whose `u32 -> f32` conversion rounds up to `2^32`, so `next_f32`
returns exactly `1.0` — not `next_u32 / 2^32`, and not a value below 1. -/
theorem c8_counterexample :
    u32val exSeedTop = 2 ^ 32 - 1
    ∧ f32val exSeedTop = 1
    ∧ ¬ (f32val exSeedTop < 1)
    ∧ f32val exSeedTop ≠ (u32val exSeedTop : ℚ) / 2 ^ 32 := by
  decide

theorem roundf32_eq_pow32 (u : Nat) (hlo : 2 ^ 32 - 128 ≤ u) (hhi : u < 2 ^ 32) :
    roundf32 u = 2 ^ 32 := by
  unfold roundf32
  split_ifs with h1 h2 h3 h4 h5 h6 h7 h8
  · exact absurd h1 (by omega)
  · exact absurd h2 (by omega)
  · exact absurd h3 (by omega)
  · exact absurd h4 (by omega)
  · exact absurd h5 (by omega)
  · exact absurd h6 (by omega)
  · exact absurd h7 (by omega)
  · exact absurd h8 (by omega)
  · unfold roundAt
    have hq : u / 2 ^ 8 = 2 ^ 24 - 1 := by omega
    have hr : 2 ^ (8 - 1) ≤ u % 2 ^ 8 := by omega
    split_ifs <;> omega

/-- C8 (amended): for every RNG state, `next_f32` returns
`(next_u32 as f32) * 2⁻³²` where the conversion rounds to 24-bit precision;
the value always lies in `[0, 1]`, is strictly below 1 exactly when
`next_u32 < 2^32 - 128`, and equals exactly `1.0` for every state whose
`next_u32` is at least `2^32 - 128` (the values that round up to `2^32`). -/
theorem c8_float01 (s : Nat) :
    0 ≤ f32val s ∧ f32val s ≤ 1 ∧ (f32val s < 1 ↔ u32val s < 2 ^ 32 - 128) ∧
      (2 ^ 32 - 128 ≤ u32val s → f32val s = 1) := by
  have hu := u32val_lt s
  have hle := roundf32_le_pow32 (u32val s) hu
  have hpow : (0 : ℚ) < 2 ^ 32 := by positivity
  have heq1 : 2 ^ 32 - 128 ≤ u32val s → f32val s = 1 := by
    intro hge
    unfold f32val
    rw [roundf32_eq_pow32 (u32val s) hge hu]
    norm_num
  refine ⟨?_, ?_, ⟨?_, ?_⟩, heq1⟩
  · unfold f32val
    positivity
  · unfold f32val
    rw [div_le_one hpow]
    calc (roundf32 (u32val s) : ℚ) ≤ ((2 ^ 32 : Nat) : ℚ) := by exact_mod_cast hle
      _ = 2 ^ 32 := by norm_num
  · intro hlt
    by_contra hge
    push_neg at hge
    rw [heq1 hge] at hlt
    exact lt_irrefl 1 hlt
  · intro hsm
    have hlt := roundf32_lt_pow32 (u32val s) hsm
    unfold f32val
    rw [div_lt_one hpow]
    calc (roundf32 (u32val s) : ℚ) < ((2 ^ 32 : Nat) : ℚ) := by exact_mod_cast hlt
      _ = 2 ^ 32 := by norm_num

unseal Rat.add Rat.mul Rat.inv Rat.sub in
/-- C8 (witness): the bounds instantiated at state 5, whose `next_u32` output
does not round up (value strictly below 1), and at `exSeedTop`, whose output
rounds up (value exactly 1). -/
theorem c8_float01_witness :
    0 ≤ f32val 5 ∧ f32val 5 ≤ 1 ∧ u32val 5 < 2 ^ 32 - 128 ∧ f32val 5 < 1
      ∧ 2 ^ 32 - 128 ≤ u32val exSeedTop ∧ f32val exSeedTop = 1 := by
  obtain ⟨h1, h2, h3, -⟩ := c8_float01 5
  obtain ⟨-, -, -, h4⟩ := c8_float01 exSeedTop
  exact ⟨h1, h2, by decide, h3.mpr (by decide), by decide, h4 (by decide)⟩

theorem attemptLoop_all_collide (w : World) (radius : ℚ) :
    ∀ (n : Nat) (rng : Nat),
      (∀ k, k < n → collidesAny w.entities (f32val (lcgIter (2 * k) rng) * w.width)
        (f32val (lcgIter (2 * k + 1) rng) * w.height) radius = true) →
      attemptLoop w radius rng n = (none, lcgIter (2 * n) rng) := by
  intro n
  induction n with
  | zero => intro rng _; rfl
  | succ m ih =>
    intro rng h
    have h0 := h 0 (Nat.succ_pos m)
    have e0 : lcgIter (2 * 0) rng = rng := rfl
    have e1 : lcgIter (2 * 0 + 1) rng = lcgAdvance rng := rfl
    rw [e0, e1] at h0
    show (if collidesAny w.entities (f32val rng * w.width)
        (f32val (lcgAdvance rng) * w.height) radius = true
      then attemptLoop w radius (lcgAdvance (lcgAdvance rng)) m
      else (some (f32val rng * w.width, f32val (lcgAdvance rng) * w.height),
        lcgAdvance (lcgAdvance rng))) = (none, lcgIter (2 * (m + 1)) rng)
    rw [if_pos h0]
    have hshift : ∀ k, k < m → collidesAny w.entities
        (f32val (lcgIter (2 * k) (lcgAdvance (lcgAdvance rng))) * w.width)
        (f32val (lcgIter (2 * k + 1) (lcgAdvance (lcgAdvance rng))) * w.height) radius = true := by
      intro k hk
      have hk1 : k + 1 < m + 1 := Nat.succ_lt_succ hk
      have ha : lcgIter (2 * (k + 1)) rng = lcgIter (2 * k) (lcgAdvance (lcgAdvance rng)) := by
        have : 2 * (k + 1) = 2 * k + 1 + 1 := by ring
        rw [this]
        rfl
      have hb : lcgIter (2 * (k + 1) + 1) rng =
          lcgIter (2 * k + 1) (lcgAdvance (lcgAdvance rng)) := by
        have : 2 * (k + 1) + 1 = 2 * k + 1 + 1 + 1 := by ring
        rw [this]
        rfl
      have := h (k + 1) hk1
      rw [ha, hb] at this
      exact this
    rw [ih (lcgAdvance (lcgAdvance rng)) hshift]
    have : 2 * (m + 1) = 2 * m + 1 + 1 := by ring
    rw [this]
    rfl

/-- C5 (amended): when every one of the 100 placement attempts collides, the
entity is appended with a fresh 101st position obtained from two additional
RNG draws (calls 201 and 202), unchecked against existing bodies; placement
terminates with the RNG advanced 202 steps. -/
theorem c5_placement_fallback (w : World) (e : Entity) (b : Body) (rng : Nat)
    (hbody : e.body = some b)
    (hcoll : ∀ k, k < 100 → collidesAny w.entities
      (f32val (lcgIter (2 * k) rng) * w.width)
      (f32val (lcgIter (2 * k + 1) rng) * w.height) b.radius = true) :
    w.addEntity e rng =
      ({ w with entities := w.entities ++ [{ e with body := some { b with
          x := f32val (lcgIter 200 rng) * w.width,
          y := f32val (lcgIter 201 rng) * w.height } }] },
       lcgIter 202 rng) := by
  obtain ⟨eid, ebody⟩ := e
  simp only at hbody
  subst hbody
  have hloop := attemptLoop_all_collide w b.radius 100 rng hcoll
  simp only [World.addEntity]
  rw [hloop]
  dsimp only [nextF32]
  rw [← lcgIter_succ_right 200 rng, ← lcgIter_succ_right (200 + 1) rng]

set_option maxRecDepth 400000 in
unseal Rat.add Rat.mul Rat.inv Rat.sub in
/-- C5 (witness): in the saturated world `exWorldFull` every one of the 100
attempts collides, and the amended fallback theorem applies. -/
theorem c5_placement_fallback_witness :
    (∀ k, k < 100 → collidesAny exWorldFull.entities
      (f32val (lcgIter (2 * k) 42) * exWorldFull.width)
      (f32val (lcgIter (2 * k + 1) 42) * exWorldFull.height)
      (Body.mk 0 0 0 0 1).radius = true)
    ∧ (exWorldFull.addEntity exEntityNew 42).2 = lcgIter 202 42 := by
  have hc : ∀ k, k < 100 → collidesAny exWorldFull.entities
      (f32val (lcgIter (2 * k) 42) * exWorldFull.width)
      (f32val (lcgIter (2 * k + 1) 42) * exWorldFull.height)
      (Body.mk 0 0 0 0 1).radius = true := by decide
  refine ⟨hc, ?_⟩
  rw [c5_placement_fallback exWorldFull exEntityNew ⟨0, 0, 0, 0, 1⟩ 42 rfl hc]

set_option maxRecDepth 400000 in
unseal Rat.add Rat.mul Rat.inv Rat.sub in
/-- C5 (counterexample): with the seed 42 in `exWorldFull`, the appended body's
position comes from RNG calls 201 and 202 — two draws beyond the 100
candidates — and differs from the 100th candidate (calls 199 and 200), and the
final RNG state is 202 (not 200) steps ahead. -/
theorem c5_counterexample :
    (exWorldFull.addEntity exEntityNew 42).1.entities.map Entity.body =
      exWorldFull.entities.map Entity.body ++
        [some ⟨f32val (lcgIter 200 42) * 100, f32val (lcgIter 201 42) * 100, 0, 0, 1⟩]
    ∧ (exWorldFull.addEntity exEntityNew 42).2 = lcgIter 202 42
    ∧ f32val (lcgIter 200 42) * 100 ≠ f32val (lcgIter 198 42) * 100
    ∧ f32val (lcgIter 201 42) * 100 ≠ f32val (lcgIter 199 42) * 100
    ∧ lcgIter 202 42 ≠ lcgIter 200 42 := by
  decide

theorem effectiveItems_clear (g : SpatialGrid) (h : GridInv g) :
    ∀ k, effectiveItems (g.clear) k = [] := by
  intro k
  obtain ⟨-, -, -, hlt, hcells⟩ := h
  have hck := hcells k
  simp only [SpatialGrid.clear]
  by_cases hw : (g.stamp + 1) % 2 ^ 32 = 0
  · rw [if_pos hw]
    simp [effectiveItems]
  · rw [if_neg hw]
    have hne : (g.cells k).stamp ≠ (g.stamp + 1) % 2 ^ 32 := by omega
    simp only [effectiveItems, if_neg hne]

theorem queryCellStep_eq (g : SpatialGrid) (st : List Nat × List Nat) (k : Nat) :
    queryCellStep g st k = (effectiveItems g k).foldl dedupStep st := by
  simp only [queryCellStep, effectiveItems]
  split_ifs with h
  · rfl
  · rfl

theorem query_eq_empty (g : SpatialGrid) (heff : ∀ k, effectiveItems g k = [])
    (x y radius : ℚ) : g.query x y radius = [] := by
  unfold SpatialGrid.query
  have hstep : ∀ st k, queryCellStep g st k = st := by
    intro st k
    rw [queryCellStep_eq, heff k]
    rfl
  have hfold : ∀ (keys : List Nat) (st : List Nat × List Nat),
      keys.foldl (queryCellStep g) st = st := by
    intro keys
    induction keys with
    | nil => intro st; rfl
    | cons k ks ih => intro st; rw [List.foldl_cons, hstep st k, ih st]
  rw [hfold]


/-- C7: after `clear()` every query returns the empty set (until an insert
re-stamps a cell): all prior contents are logically invalidated.  In the
wrap-around case (`stamp = 2^32 - 1`) every cell is fully re-initialized to
stamp 0 and the epoch stamp resets to 1. -/
theorem c7_clear_invalidates (g : SpatialGrid) (h : GridInv g) :
    (∀ x y radius, (g.clear).query x y radius = []) ∧
    (g.stamp = 2 ^ 32 - 1 →
      (g.clear).cells = (fun _ => (⟨[], 0⟩ : Cell)) ∧ (g.clear).stamp = 1) := by
  constructor
  · intro x y radius
    exact query_eq_empty _ (effectiveItems_clear g h) x y radius
  · intro hs
    have hw : (g.stamp + 1) % 2 ^ 32 = 0 := by omega
    constructor <;> (simp only [SpatialGrid.clear]; rw [if_pos hw])

/-- C7 (witness): a freshly constructed grid satisfies the invariant and its
cleared state answers a concrete query with the empty set. -/
theorem c7_clear_invalidates_witness :
    GridInv (SpatialGrid.new 100 100 10) ∧
      (SpatialGrid.new 100 100 10).clear.query 5 5 3 = [] := by
  have hInv : GridInv (SpatialGrid.new 100 100 10) :=
    ⟨by norm_num [SpatialGrid.new], rfl, le_refl 1, by norm_num [SpatialGrid.new],
      fun k => Nat.zero_le _⟩
  exact ⟨hInv, (c7_clear_invalidates _ hInv).1 5 5 3⟩

theorem touchCell_preserves (gstamp : Nat) (cs : Nat → Cell) (i' kt k i : Nat)
    (h : (cs k).stamp = gstamp ∧ i ∈ (cs k).items) :
    ((touchCell gstamp cs i' kt) k).stamp = gstamp ∧
      i ∈ ((touchCell gstamp cs i' kt) k).items := by
  unfold touchCell
  by_cases hk : k = kt
  · subst hk
    simp only [if_pos rfl]
    rw [if_pos h.1]
    exact ⟨h.1, List.mem_append_left _ h.2⟩
  · rw [if_neg hk]
    exact h

theorem touchCell_self (gstamp : Nat) (cs : Nat → Cell) (i k : Nat) :
    ((touchCell gstamp cs i k) k).stamp = gstamp ∧ i ∈ ((touchCell gstamp cs i k) k).items := by
  unfold touchCell
  simp only [if_pos rfl]
  by_cases hs : (cs k).stamp = gstamp
  · rw [if_pos hs]
    exact ⟨hs, List.mem_append_right _ (List.mem_singleton.mpr rfl)⟩
  · rw [if_neg hs]
    exact ⟨rfl, List.mem_singleton.mpr rfl⟩

theorem foldTouch_preserves (gstamp i' : Nat) :
    ∀ (keys : List Nat) (cs : Nat → Cell) (k i : Nat),
      ((cs k).stamp = gstamp ∧ i ∈ (cs k).items) →
      (((keys.foldl (fun f kk => touchCell gstamp f i' kk) cs) k).stamp = gstamp ∧
        i ∈ ((keys.foldl (fun f kk => touchCell gstamp f i' kk) cs) k).items) := by
  intro keys
  induction keys with
  | nil => intro cs k i h; exact h
  | cons k0 ks ih =>
    intro cs k i h
    exact ih _ k i (touchCell_preserves gstamp cs i' k0 k i h)

theorem foldTouch_covers (gstamp i : Nat) :
    ∀ (keys : List Nat) (cs : Nat → Cell) (k : Nat), k ∈ keys →
      (((keys.foldl (fun f kk => touchCell gstamp f i kk) cs) k).stamp = gstamp ∧
        i ∈ ((keys.foldl (fun f kk => touchCell gstamp f i kk) cs) k).items) := by
  intro keys
  induction keys with
  | nil => intro cs k h; cases h
  | cons k0 ks ih =>
    intro cs k hk
    rcases List.mem_cons.mp hk with h | h
    · subst h
      exact foldTouch_preserves gstamp i ks _ k i (touchCell_self gstamp cs i k)
    · exact ih _ k h

theorem insert_stamp (g : SpatialGrid) (i : Nat) (x y r : ℚ) :
    (g.insert i x y r).stamp = g.stamp := rfl

theorem insert_cellSizeInv (g : SpatialGrid) (i : Nat) (x y r : ℚ) :
    (g.insert i x y r).cellSizeInv = g.cellSizeInv := rfl

theorem clear_cellSizeInv (g : SpatialGrid) : (g.clear).cellSizeInv = g.cellSizeInv := by
  simp only [SpatialGrid.clear]
  split_ifs <;> rfl

theorem insertKeys_congr (g g' : SpatialGrid) (x y r : ℚ)
    (h : g.cellSizeInv = g'.cellSizeInv) : g.insertKeys x y r = g'.insertKeys x y r := by
  unfold SpatialGrid.insertKeys
  rw [h]

theorem insert_covers (g : SpatialGrid) (i : Nat) (x y r : ℚ) (k : Nat)
    (hk : k ∈ g.insertKeys x y r) : CellHas (g.insert i x y r) k i := by
  exact foldTouch_covers g.stamp i (g.insertKeys x y r) g.cells k hk

theorem insert_preserves (g : SpatialGrid) (i' : Nat) (x y r : ℚ) (k i : Nat)
    (h : CellHas g k i) : CellHas (g.insert i' x y r) k i := by
  exact foldTouch_preserves g.stamp i' (g.insertKeys x y r) g.cells k i h

theorem insertList_cellSizeInv (bs : List (Nat × ℚ × ℚ × ℚ)) :
    ∀ g : SpatialGrid, (insertList g bs).cellSizeInv = g.cellSizeInv := by
  induction bs with
  | nil => intro g; rfl
  | cons b bs ih =>
    intro g
    show (insertList (g.insert b.1 b.2.1 b.2.2.1 b.2.2.2) bs).cellSizeInv = _
    rw [ih, insert_cellSizeInv]

theorem insertList_preserves (bs : List (Nat × ℚ × ℚ × ℚ)) :
    ∀ (g : SpatialGrid) (k i : Nat), CellHas g k i → CellHas (insertList g bs) k i := by
  induction bs with
  | nil => intro g k i h; exact h
  | cons b bs ih =>
    intro g k i h
    exact ih _ k i (insert_preserves g b.1 b.2.1 b.2.2.1 b.2.2.2 k i h)

theorem insertList_covers (bs : List (Nat × ℚ × ℚ × ℚ)) :
    ∀ (g : SpatialGrid) (i : Nat) (ex ey er : ℚ) (k : Nat),
      (i, ex, ey, er) ∈ bs → k ∈ g.insertKeys ex ey er →
      CellHas (insertList g bs) k i := by
  induction bs with
  | nil => intro g i ex ey er k h; cases h
  | cons b bs ih =>
    intro g i ex ey er k hmem hk
    rcases List.mem_cons.mp hmem with h | h
    · subst h
      exact insertList_preserves bs _ k i (insert_covers g i ex ey er k hk)
    · refine ih _ i ex ey er k h ?_
      rw [← insertKeys_congr g _ ex ey er (insert_cellSizeInv g b.1 b.2.1 b.2.2.1 b.2.2.2).symm]
      exact hk

theorem dedupStep_inv (st : List Nat × List Nat) (a : Nat) (h : DStInv st) :
    DStInv (dedupStep st a) := by
  unfold dedupStep
  by_cases ha : a ∈ st.2
  · rw [if_pos ha]; exact h
  · rw [if_neg ha]
    intro x
    simp only [List.mem_append, List.mem_singleton, List.mem_cons]
    rw [h x]
    tauto

theorem foldl_dedup_inv (l : List Nat) : ∀ st, DStInv st → DStInv (l.foldl dedupStep st) := by
  induction l with
  | nil => intro st h; exact h
  | cons a l ih => intro st h; exact ih _ (dedupStep_inv st a h)

theorem foldl_dedup_mono (l : List Nat) :
    ∀ (st : List Nat × List Nat) (x : Nat), x ∈ st.1 → x ∈ (l.foldl dedupStep st).1 := by
  induction l with
  | nil => intro st x h; exact h
  | cons a l ih =>
    intro st x h
    refine ih _ x ?_
    unfold dedupStep
    split_ifs
    · exact h
    · exact List.mem_append_left _ h

theorem foldl_dedup_complete (l : List Nat) :
    ∀ (st : List Nat × List Nat) (x : Nat), DStInv st → x ∈ l →
      x ∈ (l.foldl dedupStep st).1 := by
  induction l with
  | nil => intro st x _ h; cases h
  | cons a l ih =>
    intro st x hinv hx
    rcases List.mem_cons.mp hx with h | h
    · subst h
      refine foldl_dedup_mono l _ x ?_
      unfold dedupStep
      split_ifs with ha
      · exact (hinv x).mpr ha
      · exact List.mem_append_right _ (List.mem_singleton.mpr rfl)
    · exact ih _ x (dedupStep_inv st a hinv) h

theorem queryCellStep_inv (g : SpatialGrid) (st : List Nat × List Nat) (k : Nat)
    (h : DStInv st) : DStInv (queryCellStep g st k) := by
  rw [queryCellStep_eq]
  exact foldl_dedup_inv _ st h

theorem queryCellStep_mono (g : SpatialGrid) (st : List Nat × List Nat) (k x : Nat)
    (h : x ∈ st.1) : x ∈ (queryCellStep g st k).1 := by
  rw [queryCellStep_eq]
  exact foldl_dedup_mono _ st x h

theorem queryFold_mono (g : SpatialGrid) (keys : List Nat) :
    ∀ (st : List Nat × List Nat) (x : Nat), x ∈ st.1 →
      x ∈ (keys.foldl (queryCellStep g) st).1 := by
  induction keys with
  | nil => intro st x h; exact h
  | cons k ks ih => intro st x h; exact ih _ x (queryCellStep_mono g st k x h)

theorem query_mem_of_cell (g : SpatialGrid) (x y r : ℚ) (k i : Nat)
    (hk : k ∈ g.queryKeys x y r) (hc : CellHas g k i) : i ∈ g.query x y r := by
  unfold SpatialGrid.query
  have heff : effectiveItems g k = (g.cells k).items := by
    unfold effectiveItems
    rw [if_pos hc.1]
  have main : ∀ (keys : List Nat) (st : List Nat × List Nat), DStInv st → k ∈ keys →
      i ∈ (keys.foldl (queryCellStep g) st).1 := by
    intro keys
    induction keys with
    | nil => intro st _ h; cases h
    | cons k0 ks ih =>
      intro st hinv hk0
      rcases List.mem_cons.mp hk0 with h | h
      · subst h
        rw [List.foldl_cons]
        refine queryFold_mono g ks _ i ?_
        rw [queryCellStep_eq, heff]
        exact foldl_dedup_complete _ st i hinv hc.2
      · exact ih _ (queryCellStep_inv g st k0 hinv) h
  exact main _ ([], []) (fun x => Iff.rfl) hk

theorem mem_intRange (a b c : ℤ) : c ∈ intRange a b ↔ a ≤ c ∧ c ≤ b := by
  unfold intRange
  simp only [List.mem_map, List.mem_range]
  constructor
  · rintro ⟨i, hi, rfl⟩
    omega
  · rintro ⟨h1, h2⟩
    exact ⟨(c - a).toNat, by omega, by omega⟩

theorem sq_side (t s d : ℚ) (hd : 0 ≤ d) (hs : 0 ≤ s) (h : t * t + d ≤ s * s) :
    -s ≤ t ∧ t ≤ s := by
  constructor <;> nlinarith

theorem floor_mono_mul (a b inv : ℚ) (h : a ≤ b) (hinv : 0 < inv) :
    ⌊a * inv⌋ ≤ ⌊b * inv⌋ :=
  Int.floor_le_floor (mul_le_mul_of_nonneg_right h (le_of_lt hinv))

/-- C4: broad-phase completeness.  After `clear()` and any sequence of inserts,
a query at `(qx, qy)` with radius `qr` reports every inserted body whose circle
intersects the query circle: the grid may over-report, but it never misses a
true overlap. -/
theorem c4_broad_phase_complete (g0 : SpatialGrid) (bs : List (Nat × ℚ × ℚ × ℚ))
    (qx qy qr : ℚ) (hinv : 0 < g0.cellSizeInv) (i : Nat) (ex ey er : ℚ)
    (hmem : (i, ex, ey, er) ∈ bs) (her : 0 ≤ er) (hqr : 0 ≤ qr)
    (hint : (ex - qx) * (ex - qx) + (ey - qy) * (ey - qy) ≤ (er + qr) * (er + qr)) :
    i ∈ (insertList (g0.clear) bs).query qx qy qr := by
  have hFinv : (insertList (g0.clear) bs).cellSizeInv = g0.cellSizeInv := by
    rw [insertList_cellSizeInv, clear_cellSizeInv]
  have hrs : (0 : ℚ) ≤ er + qr := by linarith
  have hx := sq_side (ex - qx) (er + qr) ((ey - qy) * (ey - qy))
    (mul_self_nonneg _) hrs (by linarith [hint])
  have hy := sq_side (ey - qy) (er + qr) ((ex - qx) * (ex - qx))
    (mul_self_nonneg _) hrs (by linarith [hint])
  have hc1 : ⌊(ex - er) * g0.cellSizeInv⌋ ≤ ⌊(qx + qr) * g0.cellSizeInv⌋ :=
    floor_mono_mul _ _ _ (by linarith [hx.2]) hinv
  have hc2 : ⌊(qx - qr) * g0.cellSizeInv⌋ ≤ ⌊(ex + er) * g0.cellSizeInv⌋ :=
    floor_mono_mul _ _ _ (by linarith [hx.1]) hinv
  have hc3 : ⌊(ex - er) * g0.cellSizeInv⌋ ≤ ⌊(ex + er) * g0.cellSizeInv⌋ :=
    floor_mono_mul _ _ _ (by linarith) hinv
  have hc4 : ⌊(qx - qr) * g0.cellSizeInv⌋ ≤ ⌊(qx + qr) * g0.cellSizeInv⌋ :=
    floor_mono_mul _ _ _ (by linarith) hinv
  have hr1 : ⌊(ey - er) * g0.cellSizeInv⌋ ≤ ⌊(qy + qr) * g0.cellSizeInv⌋ :=
    floor_mono_mul _ _ _ (by linarith [hy.2]) hinv
  have hr2 : ⌊(qy - qr) * g0.cellSizeInv⌋ ≤ ⌊(ey + er) * g0.cellSizeInv⌋ :=
    floor_mono_mul _ _ _ (by linarith [hy.1]) hinv
  have hr3 : ⌊(ey - er) * g0.cellSizeInv⌋ ≤ ⌊(ey + er) * g0.cellSizeInv⌋ :=
    floor_mono_mul _ _ _ (by linarith) hinv
  have hr4 : ⌊(qy - qr) * g0.cellSizeInv⌋ ≤ ⌊(qy + qr) * g0.cellSizeInv⌋ :=
    floor_mono_mul _ _ _ (by linarith) hinv
  have hkins : packKey (max ⌊(ex - er) * g0.cellSizeInv⌋ ⌊(qx - qr) * g0.cellSizeInv⌋)
      (max ⌊(ey - er) * g0.cellSizeInv⌋ ⌊(qy - qr) * g0.cellSizeInv⌋) ∈
      (g0.clear).insertKeys ex ey er := by
    simp only [SpatialGrid.insertKeys, clear_cellSizeInv]
    refine List.mem_flatMap.mpr ⟨_, ?_, List.mem_map.mpr ⟨_, ?_, rfl⟩⟩
    · exact (mem_intRange _ _ _).mpr ⟨le_max_left _ _, max_le hc3 hc2⟩
    · exact (mem_intRange _ _ _).mpr ⟨le_max_left _ _, max_le hr3 hr2⟩
  have hCell := insertList_covers bs (g0.clear) i ex ey er _ hmem hkins
  have hkq : packKey (max ⌊(ex - er) * g0.cellSizeInv⌋ ⌊(qx - qr) * g0.cellSizeInv⌋)
      (max ⌊(ey - er) * g0.cellSizeInv⌋ ⌊(qy - qr) * g0.cellSizeInv⌋) ∈
      (insertList (g0.clear) bs).queryKeys qx qy qr := by
    simp only [SpatialGrid.queryKeys, hFinv]
    refine List.mem_flatMap.mpr ⟨_, ?_, List.mem_map.mpr ⟨_, ?_, rfl⟩⟩
    · refine (mem_intRange _ _ _).mpr ⟨?_, ?_⟩
      · have := le_max_right ⌊(ex - er) * g0.cellSizeInv⌋ ⌊(qx - qr) * g0.cellSizeInv⌋
        omega
      · have := max_le hc1 hc4
        omega
    · refine (mem_intRange _ _ _).mpr ⟨?_, ?_⟩
      · have := le_max_right ⌊(ey - er) * g0.cellSizeInv⌋ ⌊(qy - qr) * g0.cellSizeInv⌋
        omega
      · have := max_le hr1 hr4
        omega
  exact query_mem_of_cell _ qx qy qr _ i hkq hCell

unseal Rat.add Rat.mul Rat.inv Rat.sub in
/-- C4 (witness): a body at `(50, 50)` with radius 5 inserted after a clear is
reported by the query circle at `(52, 50)` with radius 1. -/
theorem c4_broad_phase_complete_witness :
    (0 : ℚ) < (SpatialGrid.new 100 100 10).cellSizeInv
    ∧ ((50 - 52) * (50 - 52) + (50 - 50) * (50 - 50) : ℚ) ≤ (5 + 1) * (5 + 1)
    ∧ 0 ∈ (insertList ((SpatialGrid.new 100 100 10).clear) [(0, 50, 50, 5)]).query 52 50 1 := by
  have hinv : (0 : ℚ) < (SpatialGrid.new 100 100 10).cellSizeInv := by
    norm_num [SpatialGrid.new]
  refine ⟨hinv, by norm_num, ?_⟩
  exact c4_broad_phase_complete (SpatialGrid.new 100 100 10) [(0, 50, 50, 5)] 52 50 1 hinv
    0 50 50 5 (List.mem_singleton.mpr rfl) (by norm_num) (by norm_num) (by norm_num)

theorem effectiveItems_eq_effAux (g : SpatialGrid) (k : Nat) :
    effectiveItems g k = effAux g.stamp g.cells k := rfl

theorem touchCell_effAux (gstamp : Nat) (cs : Nat → Cell) (i k0 k : Nat) :
    effAux gstamp (touchCell gstamp cs i k0) k =
      if k = k0 then effAux gstamp cs k ++ [i] else effAux gstamp cs k := by
  unfold effAux touchCell
  by_cases hk : k = k0
  · subst hk
    simp only [if_pos rfl]
    by_cases hs : (cs k).stamp = gstamp
    · rw [if_pos hs, if_pos hs]
      simp [hs]
    · rw [if_neg hs, if_neg hs]
      simp
  · simp only [if_neg hk]

theorem foldTouch_effAux (i : Nat) :
    ∀ (keys : List Nat) (st1 st2 : Nat) (cs1 cs2 : Nat → Cell),
      (∀ k, effAux st1 cs1 k = effAux st2 cs2 k) →
      ∀ k, effAux st1 (keys.foldl (fun f kk => touchCell st1 f i kk) cs1) k =
        effAux st2 (keys.foldl (fun f kk => touchCell st2 f i kk) cs2) k := by
  intro keys
  induction keys with
  | nil => intro st1 st2 cs1 cs2 h k; exact h k
  | cons k0 ks ih =>
    intro st1 st2 cs1 cs2 h k
    refine ih st1 st2 _ _ ?_ k
    intro k'
    rw [touchCell_effAux, touchCell_effAux]
    by_cases hk : k' = k0
    · rw [if_pos hk, if_pos hk, h k']
    · rw [if_neg hk, if_neg hk]
      exact h k'

theorem GridR_insert (g1 g2 : SpatialGrid) (i : Nat) (x y r : ℚ) (h : GridR g1 g2) :
    GridR (g1.insert i x y r) (g2.insert i x y r) := by
  obtain ⟨hinv, heff⟩ := h
  constructor
  · exact hinv
  · intro k
    have hkeys : g1.insertKeys x y r = g2.insertKeys x y r := insertKeys_congr _ _ _ _ _ hinv
    show effAux (g1.insert i x y r).stamp (g1.insert i x y r).cells k =
      effAux (g2.insert i x y r).stamp (g2.insert i x y r).cells k
    show effAux g1.stamp ((g1.insertKeys x y r).foldl (fun f kk => touchCell g1.stamp f i kk) g1.cells) k =
      effAux g2.stamp ((g2.insertKeys x y r).foldl (fun f kk => touchCell g2.stamp f i kk) g2.cells) k
    rw [← hkeys]
    exact foldTouch_effAux i (g1.insertKeys x y r) g1.stamp g2.stamp g1.cells g2.cells
      (fun k' => heff k') k

theorem GridR_clear (g1 g2 : SpatialGrid) (h1 : GridInv g1) (h2 : GridInv g2)
    (hinv : g1.cellSizeInv = g2.cellSizeInv) : GridR (g1.clear) (g2.clear) := by
  constructor
  · rw [clear_cellSizeInv, clear_cellSizeInv]
    exact hinv
  · intro k
    rw [effectiveItems_clear g1 h1 k, effectiveItems_clear g2 h2 k]

theorem query_congr (g1 g2 : SpatialGrid) (x y r : ℚ) (h : GridR g1 g2) :
    g1.query x y r = g2.query x y r := by
  obtain ⟨hinv, heff⟩ := h
  have hkeys : g1.queryKeys x y r = g2.queryKeys x y r := by
    unfold SpatialGrid.queryKeys
    rw [hinv]
  have hstep : ∀ st k, queryCellStep g1 st k = queryCellStep g2 st k := by
    intro st k
    rw [queryCellStep_eq, queryCellStep_eq, heff k]
  unfold SpatialGrid.query
  rw [hkeys]
  have hfold : ∀ (keys : List Nat) (st : List Nat × List Nat),
      keys.foldl (queryCellStep g1) st = keys.foldl (queryCellStep g2) st := by
    intro keys
    induction keys with
    | nil => intro st; rfl
    | cons k ks ih =>
      intro st
      rw [List.foldl_cons, List.foldl_cons, hstep st k, ih]
  rw [hfold]

theorem integrate_fold_congr (w h dt : ℚ) :
    ∀ (es es0 : List Entity) (n : Nat) (g1 g2 : SpatialGrid), GridR g1 g2 →
      (es.foldl (integrateStep w h dt) (es0, g1, n)).1 =
        (es.foldl (integrateStep w h dt) (es0, g2, n)).1
      ∧ GridR (es.foldl (integrateStep w h dt) (es0, g1, n)).2.1
          (es.foldl (integrateStep w h dt) (es0, g2, n)).2.1 := by
  intro es
  induction es with
  | nil => intro es0 n g1 g2 hR; exact ⟨rfl, hR⟩
  | cons e es ih =>
    intro es0 n g1 g2 hR
    obtain ⟨eid, ebody⟩ := e
    cases ebody with
    | none =>
      simp only [List.foldl_cons, integrateStep]
      exact ih _ _ _ _ hR
    | some b =>
      simp only [List.foldl_cons, integrateStep]
      exact ih _ _ _ _ (GridR_insert _ _ _ _ _ _ hR)

theorem resolveIndex_congr (g1 g2 : SpatialGrid) (es : List Entity) (i : Nat)
    (h : GridR g1 g2) : resolveIndex g1 es i = resolveIndex g2 es i := by
  unfold resolveIndex
  cases hei : es[i]? with
  | none => rfl
  | some e =>
    cases he : e.body with
    | none => simp only [he]
    | some ba =>
      simp only [he]
      rw [query_congr _ _ _ _ _ h]

theorem update_entities_congr (es : List Entity) (w h dt : ℚ) (g1 g2 : SpatialGrid)
    (h1 : GridInv g1) (h2 : GridInv g2) (hinv : g1.cellSizeInv = g2.cellSizeInv) :
    (World.update ⟨es, w, h, g1⟩ dt).entities = (World.update ⟨es, w, h, g2⟩ dt).entities := by
  have hR := GridR_clear g1 g2 h1 h2 hinv
  have hfold := integrate_fold_congr w h dt es [] 0 (g1.clear) (g2.clear) hR
  simp only [World.update, World.integrateAndFill]
  have hresolve : resolveIndex (es.foldl (integrateStep w h dt) ([], g1.clear, 0)).2.1 =
      resolveIndex (es.foldl (integrateStep w h dt) ([], g2.clear, 0)).2.1 := by
    funext es' i
    exact resolveIndex_congr _ _ es' i hfold.2
  rw [hfold.1, hresolve]

/-- C3: `preview` leaves the world untouched; its snapshot equals the state
snapshot `step` would produce on the same world (the cloned world's fresh grid
is observationally equivalent to the live grid once cleared); and previewing
twice in a row yields identical snapshots. -/
theorem c3_preview_matches_step (sim : Simulation) (dt : ℚ)
    (hg : GridInv sim.world.spatialGrid)
    (hsync : sim.stateCache = writeEntities sim.world.entities) :
    (sim.buildPreview dt).world = sim.world
    ∧ (sim.buildPreview dt).previewCache = (sim.update dt).stateCache
    ∧ ((sim.buildPreview dt).buildPreview dt).previewCache =
        (sim.buildPreview dt).previewCache := by
  refine ⟨rfl, ?_, rfl⟩
  by_cases hdt : 0 < dt
  · simp only [Simulation.buildPreview, Simulation.update, if_pos hdt]
    congr 1
    have hpos := hg.1
    have hinv := hg.2.1
    have hcInv : GridInv (sim.world.clone).spatialGrid := by
      exact ⟨hpos, rfl, le_refl 1, by norm_num [World.clone, SpatialGrid.new],
        fun k => Nat.zero_le _⟩
    have hinveq : (sim.world.clone).spatialGrid.cellSizeInv =
        sim.world.spatialGrid.cellSizeInv := by
      exact hinv.symm
    exact update_entities_congr sim.world.entities sim.world.width sim.world.height dt
      (sim.world.clone).spatialGrid sim.world.spatialGrid hcInv hg hinveq
  · simp only [Simulation.buildPreview, Simulation.update, if_neg hdt]
    rw [hsync]
    rfl

/-- C3 (witness): the preview of the two-body simulation `exSim` with `dt = 1`
coincides with the snapshot its step produces. -/
theorem c3_preview_matches_step_witness :
    GridInv exSim.world.spatialGrid
    ∧ (exSim.buildPreview 1).previewCache = (exSim.update 1).stateCache := by
  have hg : GridInv exSim.world.spatialGrid :=
    ⟨by norm_num [exSim, exWorldSep, SpatialGrid.new], rfl, le_refl 1,
      by norm_num [exSim, exWorldSep, SpatialGrid.new], fun k => Nat.zero_le _⟩
  exact ⟨hg, (c3_preview_matches_step exSim 1 hg rfl).2.1⟩
